import Mathlib

/-!
Verification of the `tlrepo` library.

`tlrepo` provides `ThreadLocalRepo`, a thread-local lazy-initialization cache
for a `git2::Repository` handle.  The cache owns a path and a per-thread slot
table (`thread_local::ThreadLocal<Repository>`); `get` memoizes one opened
handle per calling thread, `get_uncached` opens a fresh handle every call, and
the `RepositoryExt::thread_local` adapter builds a cache from an existing
handle's path.

The embedding below makes the implicit state explicit:

* `World` carries the instrumentation the external collaborators need: the
  number of Opener invocations performed so far (`calls`, a stub call counter)
  and the in-memory content reachable through each live handle (`content`,
  keyed by handle identity).
* `Opener` is the environment describing the outcome of each Opener
  invocation: `fails p n` is the error, if any, of the `n`-th invocation on
  identifier `p`.
* Each `git2::Repository` value is a `Handle`: its identity `hid` (fresh per
  `Repository.open` call) and the path it was opened at.
* The methods of `ThreadLocalRepo` are translated from `src/lib.rs` with the
  state threaded explicitly; `&self` methods return the (possibly updated)
  cache alongside their result.
-/

namespace Tlrepo

/-- An opened repository handle (`git2::Repository`).  `hid` is the handle's
identity — each `Repository::open` call constructs a fresh object — and
`path` is the path it was opened at (what `git2::Repository::path` reports). -/
structure Handle (Id : Type) where
  hid : Nat
  path : Id

/-- The instrumented external world: `calls` counts Opener invocations
performed so far (the spec's "call counter on a stub Opener"); `content i`
is the in-memory state reachable through the handle with identity `i`. -/
structure World where
  calls : Nat
  content : Nat → Nat

/-- Modelled from the spec: the environment of the external Opener
(`git2::Repository::open`), "an opaque fallible operation returning a handle
or an error".  `fails p n` gives the error, if any, of the `n`-th Opener
invocation overall when performed on identifier `p`. -/
structure Opener (Id Err : Type) where
  fails : Id → Nat → Option Err

/-- Modelled from the spec: one invocation of the external Opener,
`git2::Repository::open(path)`.  It consumes one tick of the invocation
counter; on success it returns a handle with a fresh identity (the current
counter value, never reused), on failure the environment's error. -/
def Repository.open {Id Err : Type} (op : Opener Id Err) (p : Id) (w : World) :
    Except Err (Handle Id) × World :=
  match op.fails p w.calls with
  | some e => (.error e, { w with calls := w.calls + 1 })
  | none => (.ok ⟨w.calls, p⟩, { w with calls := w.calls + 1 })

/-- Modelled from the spec: mutating state reachable only through a given
handle (e.g. in-memory caches of the `git2::Repository` object).  Writes the
content slot of that handle's identity and nothing else. -/
def Handle.mutate {Id : Type} (h : Handle Id) (v : Nat) (w : World) : World :=
  { w with content := fun i => if i = h.hid then v else w.content i }

/-- Modelled from the spec: observing the state reachable through a handle. -/
def Handle.observe {Id : Type} (h : Handle Id) (w : World) : Nat :=
  w.content h.hid

/-- Modelled from the spec: `thread_local::ThreadLocal::get_or_try` — the
slot table's "insert-if-absent, else return existing" primitive.  If the
calling thread `t` already has a slot, return its value without running `f`;
otherwise run `f` once and, on success only, commit the result to `t`'s
slot; on failure nothing is inserted. -/
def ThreadLocal.get_or_try {Tid Id Err : Type} [DecidableEq Tid]
    (tl : Tid → Option (Handle Id)) (t : Tid)
    (f : World → Except Err (Handle Id) × World) (w : World) :
    Except Err (Handle Id) × (Tid → Option (Handle Id)) × World :=
  match tl t with
  | some h => (.ok h, tl, w)
  | none =>
    match f w with
    | (.ok h, w') => (.ok h, fun t' => if t' = t then some h else tl t', w')
    | (.error e, w') => (.error e, tl, w')

/-- The cache: a per-thread slot table (`tl : ThreadLocal<Repository>`) and
the owned repository path (`path : PathBuf`), as in `struct ThreadLocalRepo`. -/
structure ThreadLocalRepo (Tid Id : Type) where
  tl : Tid → Option (Handle Id)
  path : Id

/-- Constructor `ThreadLocalRepo::new`: a cache bound to `path` with an
empty slot table (`ThreadLocal::new()`).  Total, touches no world. -/
def ThreadLocalRepo.new {Tid Id : Type} (p : Id) : ThreadLocalRepo Tid Id :=
  { tl := fun _ => none, path := p }

/-- Method `ThreadLocalRepo::get`, called from thread `t`:
`self.tl.get_or_try(|| Repository::open(&self.path))`. -/
def ThreadLocalRepo.get {Tid Id Err : Type} [DecidableEq Tid]
    (op : Opener Id Err) (c : ThreadLocalRepo Tid Id) (t : Tid) (w : World) :
    Except Err (Handle Id) × ThreadLocalRepo Tid Id × World :=
  let rtw := ThreadLocal.get_or_try c.tl t (Repository.open op c.path) w
  (rtw.1, { c with tl := rtw.2.1 }, rtw.2.2)

/-- Method `ThreadLocalRepo::get_uncached`: `Repository::open(&self.path)`.
The body never touches the slot table, so the cache comes back unchanged. -/
def ThreadLocalRepo.get_uncached {Tid Id Err : Type}
    (op : Opener Id Err) (c : ThreadLocalRepo Tid Id) (w : World) :
    Except Err (Handle Id) × ThreadLocalRepo Tid Id × World :=
  let rw' := Repository.open op c.path w
  (rw'.1, c, rw'.2)

/-- Adapter `RepositoryExt::thread_local` for `git2::Repository`:
`ThreadLocalRepo::new(self.path().to_path_buf())`.  Pure: takes no world. -/
def Repository.thread_local {Tid Id : Type} (h : Handle Id) :
    ThreadLocalRepo Tid Id :=
  ThreadLocalRepo.new h.path

/-- One operation performed on a live cache: a `get` from some thread, a
`get_uncached`, or a caller mutating state through some handle it holds. -/
inductive Step {Tid Id Err : Type} [DecidableEq Tid] (op : Opener Id Err) :
    ThreadLocalRepo Tid Id × World → ThreadLocalRepo Tid Id × World → Prop
  | get (c : ThreadLocalRepo Tid Id) (w : World) (t : Tid) :
      Step op (c, w) (ThreadLocalRepo.get op c t w).2
  | uncached (c : ThreadLocalRepo Tid Id) (w : World) :
      Step op (c, w) (ThreadLocalRepo.get_uncached op c w).2
  | mutate (c : ThreadLocalRepo Tid Id) (w : World) (h : Handle Id) (v : Nat) :
      Step op (c, w) (c, Handle.mutate h v w)

/-- Any number of operations on a live cache. -/
abbrev Reach {Tid Id Err : Type} [DecidableEq Tid] (op : Opener Id Err) :
    ThreadLocalRepo Tid Id × World → ThreadLocalRepo Tid Id × World → Prop :=
  Relation.ReflTransGen (Step op)

/-- Runs `n` successive `get_uncached` calls, threading the world. -/
def uncachedIter {Tid Id Err : Type} (op : Opener Id Err)
    (c : ThreadLocalRepo Tid Id) (w : World) : Nat → ThreadLocalRepo Tid Id × World
  | 0 => (c, w)
  | n + 1 =>
    (ThreadLocalRepo.get_uncached op (uncachedIter op c w n).1
      (uncachedIter op c w n).2).2

/-! ## Basic equations for `get` and `get_uncached` -/

/-- A cached slot short-circuits `get`: the stored handle is returned and
nothing at all changes. -/
lemma get_slot_some {Tid Id Err : Type} [DecidableEq Tid] (op : Opener Id Err)
    (c : ThreadLocalRepo Tid Id) (t : Tid) (w : World) (hd : Handle Id)
    (hs : c.tl t = some hd) :
    ThreadLocalRepo.get op c t w = (.ok hd, c, w) := by
  simp [ThreadLocalRepo.get, ThreadLocal.get_or_try, hs]

/-- An absent slot plus a successful Opener invocation: `get` opens a fresh
handle, commits it to the calling thread's slot and returns it. -/
lemma get_slot_none_ok {Tid Id Err : Type} [DecidableEq Tid] (op : Opener Id Err)
    (c : ThreadLocalRepo Tid Id) (t : Tid) (w : World)
    (hs : c.tl t = none) (ho : op.fails c.path w.calls = none) :
    ThreadLocalRepo.get op c t w =
      (.ok ⟨w.calls, c.path⟩,
       { c with tl := fun t' => if t' = t then some ⟨w.calls, c.path⟩ else c.tl t' },
       { w with calls := w.calls + 1 }) := by
  simp [ThreadLocalRepo.get, ThreadLocal.get_or_try, Repository.open, hs, ho]

/-- An absent slot plus a failing Opener invocation: `get` returns the error
verbatim, the slot table is untouched, one invocation is consumed. -/
lemma get_slot_none_err {Tid Id Err : Type} [DecidableEq Tid] (op : Opener Id Err)
    (c : ThreadLocalRepo Tid Id) (t : Tid) (w : World) (e : Err)
    (hs : c.tl t = none) (ho : op.fails c.path w.calls = some e) :
    ThreadLocalRepo.get op c t w = (.error e, c, { w with calls := w.calls + 1 }) := by
  simp [ThreadLocalRepo.get, ThreadLocal.get_or_try, Repository.open, hs, ho]

/-- Evaluation of `get_uncached` on a successful Opener invocation. -/
lemma get_uncached_ok {Tid Id Err : Type} (op : Opener Id Err)
    (c : ThreadLocalRepo Tid Id) (w : World)
    (ho : op.fails c.path w.calls = none) :
    ThreadLocalRepo.get_uncached op c w =
      (.ok ⟨w.calls, c.path⟩, c, { w with calls := w.calls + 1 }) := by
  simp [ThreadLocalRepo.get_uncached, Repository.open, ho]

/-- Evaluation of `get_uncached` on a failing Opener invocation. -/
lemma get_uncached_err {Tid Id Err : Type} (op : Opener Id Err)
    (c : ThreadLocalRepo Tid Id) (w : World) (e : Err)
    (ho : op.fails c.path w.calls = some e) :
    ThreadLocalRepo.get_uncached op c w =
      (.error e, c, { w with calls := w.calls + 1 }) := by
  simp [ThreadLocalRepo.get_uncached, Repository.open, ho]

/-- The post-state of `get_uncached` never depends on the Opener outcome:
the cache is unchanged and one invocation is consumed. -/
lemma get_uncached_state {Tid Id Err : Type} (op : Opener Id Err)
    (c : ThreadLocalRepo Tid Id) (w : World) :
    (ThreadLocalRepo.get_uncached op c w).2 = (c, { w with calls := w.calls + 1 }) := by
  rcases ho : op.fails c.path w.calls with _ | e
  · rw [get_uncached_ok op c w ho]
  · rw [get_uncached_err op c w e ho]

/-- After a successful `get`, the calling thread's slot holds exactly the
returned handle. -/
lemma get_ok_slot {Tid Id Err : Type} [DecidableEq Tid] {op : Opener Id Err}
    {c c' : ThreadLocalRepo Tid Id} {t : Tid} {w w' : World} {hd : Handle Id}
    (hg : ThreadLocalRepo.get op c t w = (.ok hd, c', w')) :
    c'.tl t = some hd := by
  rcases hs : c.tl t with _ | hd₀
  · rcases ho : op.fails c.path w.calls with _ | e
    · rw [get_slot_none_ok op c t w hs ho] at hg
      injection hg with h1 hrest
      injection hrest with h2 h3
      injection h1 with h1
      subst h1 h2
      simp
    · rw [get_slot_none_err op c t w e hs ho] at hg
      injection hg with h1 _
      exact absurd h1 (by simp)
  · rw [get_slot_some op c t w hd₀ hs] at hg
    injection hg with h1 hrest
    injection hrest with h2 h3
    injection h1 with h1
    subst h1 h2
    exact hs

/-- A successful `get` either returned the already-cached handle, or the
slot was absent and the handle is the freshly opened one (identity = the
pre-call invocation counter). -/
lemma get_ok_cases {Tid Id Err : Type} [DecidableEq Tid] {op : Opener Id Err}
    {c c' : ThreadLocalRepo Tid Id} {t : Tid} {w w' : World} {hd : Handle Id}
    (hg : ThreadLocalRepo.get op c t w = (.ok hd, c', w')) :
    (c.tl t = some hd ∧ c' = c ∧ w' = w) ∨
    (c.tl t = none ∧ hd = ⟨w.calls, c.path⟩ ∧ w'.calls = w.calls + 1) := by
  rcases hs : c.tl t with _ | hd₀
  · rcases ho : op.fails c.path w.calls with _ | e
    · rw [get_slot_none_ok op c t w hs ho] at hg
      injection hg with h1 hrest
      injection hrest with h2 h3
      injection h1 with h1
      exact Or.inr ⟨rfl, h1.symm, by rw [← h3]⟩
    · rw [get_slot_none_err op c t w e hs ho] at hg
      injection hg with h1 _
      exact absurd h1 (by simp)
  · rw [get_slot_some op c t w hd₀ hs] at hg
    injection hg with h1 hrest
    injection hrest with h2 h3
    injection h1 with h1
    subst h1
    exact Or.inl ⟨rfl, h2.symm, h3.symm⟩

/-! ## Step and reachability lemmas -/

/-- No operation ever removes or replaces a committed slot. -/
lemma step_tl_mono {Tid Id Err : Type} [DecidableEq Tid] {op : Opener Id Err}
    {s s' : ThreadLocalRepo Tid Id × World} (hstep : Step op s s')
    (t : Tid) (hd : Handle Id) (hs : s.1.tl t = some hd) :
    s'.1.tl t = some hd := by
  cases hstep with
  | get c w t' =>
    rcases hs' : c.tl t' with _ | hd'
    · rcases ho : op.fails c.path w.calls with _ | e
      · rw [get_slot_none_ok op c t' w hs' ho]
        have hne : t ≠ t' := fun h => by
          rw [h] at hs; rw [hs] at hs'; exact Option.noConfusion hs'
        simpa [hne] using hs
      · rw [get_slot_none_err op c t' w e hs' ho]
        exact hs
    · rw [get_slot_some op c t' w hd' hs']
      exact hs
  | uncached c w =>
    rw [get_uncached_state op c w]
    exact hs
  | mutate c w h v =>
    exact hs

/-- No operation ever mutates the stored identifier. -/
lemma step_path_eq {Tid Id Err : Type} [DecidableEq Tid] {op : Opener Id Err}
    {s s' : ThreadLocalRepo Tid Id × World} (hstep : Step op s s') :
    s'.1.path = s.1.path := by
  cases hstep with
  | get c w t' =>
    rcases hs' : c.tl t' with _ | hd'
    · rcases ho : op.fails c.path w.calls with _ | e
      · rw [get_slot_none_ok op c t' w hs' ho]
      · rw [get_slot_none_err op c t' w e hs' ho]
    · rw [get_slot_some op c t' w hd' hs']
  | uncached c w =>
    rw [get_uncached_state op c w]
  | mutate c w h v =>
    rfl

/-- The Opener invocation counter never decreases across an operation. -/
lemma step_calls_mono {Tid Id Err : Type} [DecidableEq Tid] {op : Opener Id Err}
    {s s' : ThreadLocalRepo Tid Id × World} (hstep : Step op s s') :
    s.2.calls ≤ s'.2.calls := by
  cases hstep with
  | get c w t' =>
    rcases hs' : c.tl t' with _ | hd'
    · rcases ho : op.fails c.path w.calls with _ | e
      · rw [get_slot_none_ok op c t' w hs' ho]
        exact Nat.le_succ _
      · rw [get_slot_none_err op c t' w e hs' ho]
        exact Nat.le_succ _
    · rw [get_slot_some op c t' w hd' hs']
  | uncached c w =>
    rw [get_uncached_state op c w]
    exact Nat.le_succ _
  | mutate c w h v =>
    exact Nat.le_refl _

/-- Committed slots persist along any sequence of operations. -/
lemma reach_tl_mono {Tid Id Err : Type} [DecidableEq Tid] {op : Opener Id Err}
    {s s' : ThreadLocalRepo Tid Id × World} (hr : Reach op s s')
    (t : Tid) (hd : Handle Id) (hs : s.1.tl t = some hd) :
    s'.1.tl t = some hd := by
  induction hr with
  | refl => exact hs
  | tail _ hstep ih => exact step_tl_mono hstep t hd ih

/-- The stored identifier persists along any sequence of operations. -/
lemma reach_path_eq {Tid Id Err : Type} [DecidableEq Tid] {op : Opener Id Err}
    {s s' : ThreadLocalRepo Tid Id × World} (hr : Reach op s s') :
    s'.1.path = s.1.path := by
  induction hr with
  | refl => rfl
  | tail _ hstep ih => rw [step_path_eq hstep, ih]

/-! ## Handle-identity invariant -/

/-- Every committed handle was opened by a past Opener invocation (its
identity is below the invocation counter), and handles committed for two
distinct threads have distinct identities. -/
def Inv {Tid Id : Type} (s : ThreadLocalRepo Tid Id × World) : Prop :=
  (∀ t hd, s.1.tl t = some hd → hd.hid < s.2.calls) ∧
  (∀ t₁ t₂ (hd₁ hd₂ : Handle Id), s.1.tl t₁ = some hd₁ → s.1.tl t₂ = some hd₂ →
    t₁ ≠ t₂ → hd₁.hid ≠ hd₂.hid)

/-- The handle-identity invariant is preserved by every operation. -/
lemma inv_step {Tid Id Err : Type} [DecidableEq Tid] {op : Opener Id Err}
    {s s' : ThreadLocalRepo Tid Id × World} (hInv : Inv s) (hstep : Step op s s') :
    Inv s' := by
  obtain ⟨hbound, hinj⟩ := hInv
  cases hstep with
  | get c w t' =>
    rcases hs' : c.tl t' with _ | hd'
    · rcases ho : op.fails c.path w.calls with _ | e
      · rw [get_slot_none_ok op c t' w hs' ho]
        constructor
        · intro t hd hslot
          simp only at hslot
          by_cases ht : t = t'
          · rw [if_pos ht] at hslot
            injection hslot with hslot
            rw [← hslot]
            exact Nat.lt_succ_self _
          · rw [if_neg ht] at hslot
            exact Nat.lt_succ_of_lt (hbound t hd hslot)
        · intro t₁ t₂ hd₁ hd₂ hs₁ hs₂ hne
          simp only at hs₁ hs₂
          by_cases h₁ : t₁ = t'
          · rw [if_pos h₁] at hs₁
            rw [if_neg (fun h₂ => hne (h₁.trans h₂.symm))] at hs₂
            injection hs₁ with hs₁
            rw [← hs₁]
            exact (Nat.ne_of_lt (hbound t₂ hd₂ hs₂)).symm
          · rw [if_neg h₁] at hs₁
            by_cases h₂ : t₂ = t'
            · rw [if_pos h₂] at hs₂
              injection hs₂ with hs₂
              rw [← hs₂]
              exact Nat.ne_of_lt (hbound t₁ hd₁ hs₁)
            · rw [if_neg h₂] at hs₂
              exact hinj t₁ t₂ hd₁ hd₂ hs₁ hs₂ hne
      · rw [get_slot_none_err op c t' w e hs' ho]
        exact ⟨fun t hd hslot => Nat.lt_succ_of_lt (hbound t hd hslot), hinj⟩
    · rw [get_slot_some op c t' w hd' hs']
      exact ⟨hbound, hinj⟩
  | uncached c w =>
    rw [get_uncached_state op c w]
    exact ⟨fun t hd hslot => Nat.lt_succ_of_lt (hbound t hd hslot), hinj⟩
  | mutate c w h v =>
    exact ⟨hbound, hinj⟩

/-- The handle-identity invariant holds in every state reachable from an
invariant state. -/
lemma inv_reach {Tid Id Err : Type} [DecidableEq Tid] {op : Opener Id Err}
    {s s' : ThreadLocalRepo Tid Id × World} (hInv : Inv s) (hr : Reach op s s') :
    Inv s' := by
  induction hr with
  | refl => exact hInv
  | tail _ hstep ih => exact inv_step ih hstep

/-- A freshly constructed cache satisfies the handle-identity invariant in
any world. -/
lemma inv_new {Tid Id : Type} (p : Id) (w : World) :
    Inv ((ThreadLocalRepo.new p : ThreadLocalRepo Tid Id), w) := by
  constructor
  · intro t hd hslot
    exact absurd hslot (by simp [ThreadLocalRepo.new])
  · intro t₁ t₂ hd₁ hd₂ hs₁ _ _
    exact absurd hs₁ (by simp [ThreadLocalRepo.new])

/-- Any number of successive `get_uncached` calls never changes the cache
component. -/
lemma uncachedIter_fst {Tid Id Err : Type} (op : Opener Id Err)
    (c : ThreadLocalRepo Tid Id) (w : World) :
    ∀ n, (uncachedIter op c w n).1 = c
  | 0 => rfl
  | n + 1 => by
    simp only [uncachedIter, ThreadLocalRepo.get_uncached]
    exact uncachedIter_fst op c w n

/-! ## A concrete environment for witnesses -/

/-- An Opener environment in which every invocation succeeds. -/
def opAll : Opener Nat Nat := ⟨fun _ _ => none⟩

/-- An Opener environment in which every invocation fails with error `7`. -/
def opBad : Opener Nat Nat := ⟨fun _ _ => some 7⟩

/-- An initial world: no Opener invocations yet, all content zero. -/
def w0 : World := ⟨0, fun _ => 0⟩

/-- A fresh cache bound to identifier `5`, threads and errors numbered. -/
def c0 : ThreadLocalRepo Nat Nat := ThreadLocalRepo.new 5

/-- The cache after thread `0`'s first successful `get` on `c0`. -/
def c1 : ThreadLocalRepo Nat Nat :=
  ⟨fun t' => if t' = 0 then some ⟨0, 5⟩ else none, 5⟩

/-- The world after one Opener invocation on `w0`. -/
def w1 : World := ⟨1, fun _ => 0⟩

/-- The cache after thread `1`'s first successful `get` on `c1`. -/
def c2 : ThreadLocalRepo Nat Nat :=
  ⟨fun t' => if t' = 1 then some ⟨1, 5⟩ else if t' = 0 then some ⟨0, 5⟩ else none, 5⟩

/-- The world after two Opener invocations on `w0`. -/
def w2 : World := ⟨2, fun _ => 0⟩

/-! ## The claims -/

/-- Claim C1: once a first `get` on thread `t` has succeeded, every
subsequent `get` on `t` — after any number of further operations on the
cache — returns `Ok` with the identical handle (same identity), leaves the
cache untouched, and performs no Opener invocation and no I/O (the world,
including the invocation counter, is returned unchanged). -/
theorem C1_get_memoized_stable {Tid Id Err : Type} [DecidableEq Tid]
    (op : Opener Id Err) (c c₁ c₂ : ThreadLocalRepo Tid Id) (t : Tid)
    (w w₁ w₂ : World) (hd : Handle Id)
    (hfirst : ThreadLocalRepo.get op c t w = (.ok hd, c₁, w₁))
    (hreach : Reach op (c₁, w₁) (c₂, w₂)) :
    ThreadLocalRepo.get op c₂ t w₂ = (.ok hd, c₂, w₂) := by
  have hslot : c₂.tl t = some hd := reach_tl_mono hreach t hd (get_ok_slot hfirst)
  exact get_slot_some op c₂ t w₂ hd hslot

/-- Witness for C1 at a concrete input: after thread `0`'s first `get`
succeeds on the fresh cache `c0`, a second `get` (here after zero further
operations) returns the same handle `⟨0, 5⟩` and changes nothing. -/
theorem C1_witness :
    ThreadLocalRepo.get opAll c1 0 w1 = (.ok ⟨0, 5⟩, c1, w1) :=
  C1_get_memoized_stable opAll c0 c1 c1 0 w0 w1 w1 ⟨0, 5⟩ rfl
    Relation.ReflTransGen.refl

/-- Claim C2: on a thread with no committed slot, `get` performs exactly one
Opener invocation on the stored identifier; if it succeeds, the fresh handle
is committed to the calling thread's slot and `get` returns exactly the
newly stored value. -/
theorem C2_first_get_opens_once {Tid Id Err : Type} [DecidableEq Tid]
    (op : Opener Id Err) (c : ThreadLocalRepo Tid Id) (t : Tid) (w : World)
    (hs : c.tl t = none) :
    (ThreadLocalRepo.get op c t w).2.2.calls = w.calls + 1 ∧
    (op.fails c.path w.calls = none →
      ThreadLocalRepo.get op c t w =
        (.ok ⟨w.calls, c.path⟩,
         { c with tl := fun t' => if t' = t then some ⟨w.calls, c.path⟩ else c.tl t' },
         { w with calls := w.calls + 1 }) ∧
      ((ThreadLocalRepo.get op c t w).2.1).tl t = some ⟨w.calls, c.path⟩) := by
  constructor
  · rcases ho : op.fails c.path w.calls with _ | e
    · rw [get_slot_none_ok op c t w hs ho]
    · rw [get_slot_none_err op c t w e hs ho]
  · intro ho
    refine ⟨get_slot_none_ok op c t w hs ho, ?_⟩
    rw [get_slot_none_ok op c t w hs ho]
    simp

/-- Witness for C2 at a concrete input: thread `0`'s first `get` on the
fresh cache `c0` consumes one Opener invocation, returns the fresh handle
`⟨0, 5⟩`, and commits it to thread `0`'s slot. -/
theorem C2_witness :
    (ThreadLocalRepo.get opAll c0 0 w0).2.2.calls = 1 ∧
    (ThreadLocalRepo.get opAll c0 0 w0).1 = .ok ⟨0, 5⟩ ∧
    ((ThreadLocalRepo.get opAll c0 0 w0).2.1).tl 0 = some ⟨0, 5⟩ := by
  have h := C2_first_get_opens_once opAll c0 0 w0 rfl
  have h2 := h.2 rfl
  refine ⟨h.1, ?_, h2.2⟩
  rw [h2.1]
  rfl

/-- Claim C3: with no committed slot for the calling thread, `get` (and
`get_uncached` always) fails exactly when the Opener invocation it performs
fails, returning the Opener's error verbatim; a failed `get` commits
nothing — the cache and all handle-reachable content are exactly as before
the call — and the next `get` from that thread performs a fresh Opener
invocation. -/
theorem C3_error_propagation {Tid Id Err : Type} [DecidableEq Tid]
    (op : Opener Id Err) (c : ThreadLocalRepo Tid Id) (t : Tid) (w : World)
    (hs : c.tl t = none) :
    (∀ e : Err, (ThreadLocalRepo.get op c t w).1 = .error e ↔
      op.fails c.path w.calls = some e) ∧
    (∀ e : Err, (ThreadLocalRepo.get_uncached op c w).1 = .error e ↔
      op.fails c.path w.calls = some e) ∧
    (∀ e : Err, op.fails c.path w.calls = some e →
      (ThreadLocalRepo.get op c t w).2.1 = c ∧
      (ThreadLocalRepo.get op c t w).2.2.content = w.content ∧
      (∀ w₂ : World,
        (ThreadLocalRepo.get op (ThreadLocalRepo.get op c t w).2.1 t w₂).2.2.calls =
          w₂.calls + 1)) := by
  refine ⟨?_, ?_, ?_⟩
  · intro e
    constructor
    · intro he
      rcases ho : op.fails c.path w.calls with _ | e'
      · rw [get_slot_none_ok op c t w hs ho] at he
        exact absurd he (by simp)
      · rw [get_slot_none_err op c t w e' hs ho] at he
        simp only [Except.error.injEq] at he
        rw [← he]
    · intro ho
      rw [get_slot_none_err op c t w e hs ho]
  · intro e
    constructor
    · intro he
      rcases ho : op.fails c.path w.calls with _ | e'
      · rw [get_uncached_ok op c w ho] at he
        exact absurd he (by simp)
      · rw [get_uncached_err op c w e' ho] at he
        simp only [Except.error.injEq] at he
        rw [← he]
    · intro ho
      rw [get_uncached_err op c w e ho]
  · intro e ho
    have hc : (ThreadLocalRepo.get op c t w).2.1 = c := by
      rw [get_slot_none_err op c t w e hs ho]
    refine ⟨hc, ?_, ?_⟩
    · rw [get_slot_none_err op c t w e hs ho]
    · intro w₂
      rw [hc]
      rcases ho₂ : op.fails c.path w₂.calls with _ | e₂
      · rw [get_slot_none_ok op c t w₂ hs ho₂]
      · rw [get_slot_none_err op c t w₂ e₂ hs ho₂]

/-- Witness for C3 at a concrete input: on the always-failing Opener, the
first `get` returns error `7` verbatim, leaves the cache `c0` unchanged,
and the next `get` consumes a fresh Opener invocation. -/
theorem C3_witness :
    (ThreadLocalRepo.get opBad c0 0 w0).1 = .error 7 ∧
    (ThreadLocalRepo.get opBad c0 0 w0).2.1 = c0 ∧
    (ThreadLocalRepo.get opBad (ThreadLocalRepo.get opBad c0 0 w0).2.1 0 w1).2.2.calls = 2 := by
  have h := C3_error_propagation opBad c0 0 w0 rfl
  have h3 := h.2.2 7 rfl
  exact ⟨(h.1 7).mpr rfl, h3.1, h3.2.2 w1⟩

/-- Claim C4: every `get_uncached` call performs exactly one Opener
invocation on the stored identifier and returns the resulting handle or
error; it never touches the slot table — after any number of `get_uncached`
calls the cache (hence every thread's cached slot, hence the behaviour of a
later `get`) is unchanged. -/
theorem C4_uncached_frame {Tid Id Err : Type} [DecidableEq Tid]
    (op : Opener Id Err) (c : ThreadLocalRepo Tid Id) (w : World) :
    (ThreadLocalRepo.get_uncached op c w).2.1 = c ∧
    (ThreadLocalRepo.get_uncached op c w).2.2.calls = w.calls + 1 ∧
    (op.fails c.path w.calls = none →
      (ThreadLocalRepo.get_uncached op c w).1 = .ok ⟨w.calls, c.path⟩) ∧
    (∀ e : Err, op.fails c.path w.calls = some e →
      (ThreadLocalRepo.get_uncached op c w).1 = .error e) ∧
    (∀ n, (uncachedIter op c w n).1 = c) ∧
    (∀ n (t : Tid) (w₂ : World),
      ThreadLocalRepo.get op (uncachedIter op c w n).1 t w₂ =
        ThreadLocalRepo.get op c t w₂) := by
  refine ⟨rfl, ?_, ?_, ?_, uncachedIter_fst op c w, ?_⟩
  · rw [get_uncached_state op c w]
  · intro ho
    rw [get_uncached_ok op c w ho]
  · intro e ho
    rw [get_uncached_err op c w e ho]
  · intro n t w₂
    rw [uncachedIter_fst op c w n]

/-- Witness for C4 at a concrete input: one `get_uncached` on the fresh
cache returns the fresh handle and leaves the cache unchanged, and three
`get_uncached` calls in a row still leave the cache at `c0`. -/
theorem C4_witness :
    (ThreadLocalRepo.get_uncached opAll c0 w0).2.1 = c0 ∧
    (ThreadLocalRepo.get_uncached opAll c0 w0).1 = .ok ⟨0, 5⟩ ∧
    (uncachedIter opAll c0 w0 3).1 = c0 := by
  have h := C4_uncached_frame opAll c0 w0
  exact ⟨h.1, h.2.2.1 rfl, h.2.2.2.2.1 3⟩

/-- Claim C5: along any sequence of operations on a live cache, the stored
identifier never changes, and no committed slot is ever removed or replaced
(each thread's slot holds at most one handle by construction, and once
committed it persists identically). -/
theorem C5_identifier_and_slots_stable {Tid Id Err : Type} [DecidableEq Tid]
    (op : Opener Id Err) (c c' : ThreadLocalRepo Tid Id) (w w' : World)
    (hr : Reach op (c, w) (c', w')) :
    c'.path = c.path ∧
    ∀ (t : Tid) (hd : Handle Id), c.tl t = some hd → c'.tl t = some hd :=
  ⟨reach_path_eq hr, fun t hd hs => reach_tl_mono hr t hd hs⟩

/-- Witness for C5 at a concrete input: across one `get_uncached` operation
on the populated cache `c1`, the identifier is still `5` and thread `0`'s
committed handle `⟨0, 5⟩` is still in place. -/
theorem C5_witness :
    ((ThreadLocalRepo.get_uncached opAll c1 w1).2.1).path = c1.path ∧
    ((ThreadLocalRepo.get_uncached opAll c1 w1).2.1).tl 0 = some ⟨0, 5⟩ := by
  have h := C5_identifier_and_slots_stable opAll c1
    (ThreadLocalRepo.get_uncached opAll c1 w1).2.1 w1
    (ThreadLocalRepo.get_uncached opAll c1 w1).2.2
    (Relation.ReflTransGen.single (Step.uncached c1 w1))
  exact ⟨h.1, h.2 0 ⟨0, 5⟩ rfl⟩

/-- Claim C6: in any state reachable from a fresh cache, successful `get`
calls from two distinct threads yield handles with distinct identities, and
mutating content reachable only through the first thread's handle is not
observable through the second thread's handle. -/
theorem C6_thread_independence {Tid Id Err : Type} [DecidableEq Tid]
    (op : Opener Id Err) (p : Id) (w₀ w w₁ w₂ : World)
    (c c₁ c₂ : ThreadLocalRepo Tid Id) (t₁ t₂ : Tid)
    (h₁ h₂ : Handle Id) (v : Nat)
    (hr : Reach op (ThreadLocalRepo.new p, w₀) (c, w))
    (hg1 : ThreadLocalRepo.get op c t₁ w = (.ok h₁, c₁, w₁))
    (hg2 : ThreadLocalRepo.get op c₁ t₂ w₁ = (.ok h₂, c₂, w₂))
    (hne : t₁ ≠ t₂) :
    h₁.hid ≠ h₂.hid ∧
    Handle.observe h₂ (Handle.mutate h₁ v w₂) = Handle.observe h₂ w₂ := by
  have hInv : Inv (c, w) := inv_reach (inv_new p w₀) hr
  have hstep1 : Step op (c, w) (c₁, w₁) := by
    have h : Step op (c, w) (ThreadLocalRepo.get op c t₁ w).2 := Step.get c w t₁
    rw [hg1] at h
    exact h
  have hInv1 : Inv (c₁, w₁) := inv_step hInv hstep1
  have hslot1 : c₁.tl t₁ = some h₁ := get_ok_slot hg1
  have hneq : h₁.hid ≠ h₂.hid := by
    rcases get_ok_cases hg2 with ⟨hs₂, _, _⟩ | ⟨_, hfresh, _⟩
    · exact hInv1.2 t₁ t₂ h₁ h₂ hslot1 hs₂ hne
    · have hb := hInv1.1 t₁ h₁ hslot1
      rw [hfresh]
      exact Nat.ne_of_lt hb
  refine ⟨hneq, ?_⟩
  have hne' : h₂.hid ≠ h₁.hid := Ne.symm hneq
  simp [Handle.observe, Handle.mutate, hne']

/-- Witness for C6 at a concrete input: threads `0` and `1` each `get` once
from the fresh cache; the handles `⟨0, 5⟩` and `⟨1, 5⟩` have distinct
identities and writing `3` through thread `0`'s handle does not change what
thread `1`'s handle observes. -/
theorem C6_witness :
    (0 : Nat) ≠ (1 : Nat) ∧
    Handle.observe (⟨1, 5⟩ : Handle Nat)
      (Handle.mutate (⟨0, 5⟩ : Handle Nat) 3 w2) =
      Handle.observe (⟨1, 5⟩ : Handle Nat) w2 :=
  C6_thread_independence opAll 5 w0 w0 w1 w2 c0 c1 c2 0 1 ⟨0, 5⟩ ⟨1, 5⟩ 3
    Relation.ReflTransGen.refl rfl rfl (by decide)

/-- Claim C7: the `RepositoryExt::thread_local` adapter builds, from an
existing open handle, a cache bound to that handle's path with an empty
slot table (so it shares no stored handle with the originating one), and
the first `get` on any thread still performs exactly one Opener
invocation.  The adapter itself is a pure construction: it takes and
produces no world, so it performs no I/O. -/
theorem C7_adapter_fresh_cache {Tid Id Err : Type} [DecidableEq Tid]
    (h : Handle Id) :
    (Repository.thread_local h : ThreadLocalRepo Tid Id).path = h.path ∧
    (∀ t : Tid, (Repository.thread_local h : ThreadLocalRepo Tid Id).tl t = none) ∧
    (∀ (op : Opener Id Err) (t : Tid) (w : World),
      (ThreadLocalRepo.get op (Repository.thread_local h) t w).2.2.calls =
        w.calls + 1) := by
  refine ⟨rfl, fun _ => rfl, ?_⟩
  intro op t w
  rcases ho : op.fails (Repository.thread_local h : ThreadLocalRepo Tid Id).path w.calls with _ | e
  · rw [get_slot_none_ok op (Repository.thread_local h) t w rfl ho]
  · rw [get_slot_none_err op (Repository.thread_local h) t w e rfl ho]

/-- Witness for C7 at a concrete input: the adapter on handle `⟨0, 5⟩`
yields a cache bound to `5` with no slot for thread `0`, and a `get` from
thread `0` consumes exactly one Opener invocation. -/
theorem C7_witness :
    (Repository.thread_local (⟨0, 5⟩ : Handle Nat) : ThreadLocalRepo Nat Nat).path = 5 ∧
    (Repository.thread_local (⟨0, 5⟩ : Handle Nat) : ThreadLocalRepo Nat Nat).tl 0 = none ∧
    (ThreadLocalRepo.get opAll (Repository.thread_local ⟨0, 5⟩) 0 w0).2.2.calls = 1 := by
  have h := @C7_adapter_fresh_cache Nat Nat Nat _ ⟨0, 5⟩
  exact ⟨h.1, h.2.1 0, h.2.2 opAll 0 w0⟩

/-- Claim C8: `new(identifier)` is a total pure construction (it takes and
produces no world, so it never fails, performs no I/O and no Opener
invocation and cannot validate the identifier): the result is bound to the
given identifier and its slot table is empty. -/
theorem C8_new_empty_cache {Tid Id : Type} (p : Id) :
    (ThreadLocalRepo.new p : ThreadLocalRepo Tid Id).path = p ∧
    ∀ t : Tid, (ThreadLocalRepo.new p : ThreadLocalRepo Tid Id).tl t = none :=
  ⟨rfl, fun _ => rfl⟩

/-- Witness for C8 at a concrete input: a new cache bound to `5` has
identifier `5` and no slot for thread `0`. -/
theorem C8_witness :
    (ThreadLocalRepo.new 5 : ThreadLocalRepo Nat Nat).path = 5 ∧
    (ThreadLocalRepo.new 5 : ThreadLocalRepo Nat Nat).tl 0 = none := by
  have h := @C8_new_empty_cache Nat Nat 5
  exact ⟨h.1, h.2 0⟩

/-- Claim C9: per-thread write locality — a `get` from thread `t` never
writes any other thread's slot and never touches the identifier, and
`get_uncached` leaves the whole cache (slot table and identifier)
untouched, so no cross-thread write contention on slot contents exists. -/
theorem C9_per_thread_write_locality {Tid Id Err : Type} [DecidableEq Tid]
    (op : Opener Id Err) (c : ThreadLocalRepo Tid Id) (t t' : Tid) (w : World)
    (hne : t' ≠ t) :
    ((ThreadLocalRepo.get op c t w).2.1).tl t' = c.tl t' ∧
    ((ThreadLocalRepo.get op c t w).2.1).path = c.path ∧
    (ThreadLocalRepo.get_uncached op c w).2.1 = c := by
  refine ⟨?_, ?_, rfl⟩
  · rcases hs : c.tl t with _ | hd
    · rcases ho : op.fails c.path w.calls with _ | e
      · rw [get_slot_none_ok op c t w hs ho]
        simp [hne]
      · rw [get_slot_none_err op c t w e hs ho]
    · rw [get_slot_some op c t w hd hs]
  · rcases hs : c.tl t with _ | hd
    · rcases ho : op.fails c.path w.calls with _ | e
      · rw [get_slot_none_ok op c t w hs ho]
      · rw [get_slot_none_err op c t w e hs ho]
    · rw [get_slot_some op c t w hd hs]

/-- Witness for C9 at a concrete input: thread `0`'s `get` does not write
thread `1`'s slot, and `get_uncached` leaves the cache unchanged. -/
theorem C9_witness :
    ((ThreadLocalRepo.get opAll c0 0 w0).2.1).tl 1 = c0.tl 1 ∧
    (ThreadLocalRepo.get_uncached opAll c0 w0).2.1 = c0 := by
  have h := C9_per_thread_write_locality opAll c0 0 1 w0 (by decide)
  exact ⟨h.1, h.2.2⟩

/-- Claim C10: on a thread with no committed slot, `get` refines
`get_uncached`: both perform the same single Opener invocation on the same
stored identifier — so the returned result and the post-call world
coincide — and they differ only in that `get` additionally commits a
successful handle to the calling thread's slot (on failure the caches also
coincide). -/
theorem C10_get_refines_uncached {Tid Id Err : Type} [DecidableEq Tid]
    (op : Opener Id Err) (c : ThreadLocalRepo Tid Id) (t : Tid) (w : World)
    (hs : c.tl t = none) :
    (ThreadLocalRepo.get op c t w).1 = (ThreadLocalRepo.get_uncached op c w).1 ∧
    (ThreadLocalRepo.get op c t w).2.2 = (ThreadLocalRepo.get_uncached op c w).2.2 ∧
    (∀ t' : Tid, t' ≠ t →
      ((ThreadLocalRepo.get op c t w).2.1).tl t' = c.tl t') ∧
    (∀ hd : Handle Id, (ThreadLocalRepo.get op c t w).1 = .ok hd →
      ((ThreadLocalRepo.get op c t w).2.1).tl t = some hd) ∧
    (∀ e : Err, (ThreadLocalRepo.get op c t w).1 = .error e →
      (ThreadLocalRepo.get op c t w).2.1 = c) := by
  rcases ho : op.fails c.path w.calls with _ | e
  · rw [get_slot_none_ok op c t w hs ho, get_uncached_ok op c w ho]
    refine ⟨rfl, rfl, ?_, ?_, ?_⟩
    · intro t' hne
      simp [hne]
    · intro hd h1
      have h1' : Except.ok (⟨w.calls, c.path⟩ : Handle Id) = .ok hd := h1
      injection h1' with h1'
      rw [← h1']
      simp
    · intro e' h1
      exact absurd h1 (by simp)
  · rw [get_slot_none_err op c t w e hs ho, get_uncached_err op c w e ho]
    refine ⟨rfl, rfl, ?_, ?_, ?_⟩
    · intro t' _
      rfl
    · intro hd h1
      exact absurd h1 (by simp)
    · intro e' _
      rfl

/-- Witness for C10 at a concrete input: on the fresh cache, thread `0`'s
`get` and a `get_uncached` return the same result and world, and `get`
commits the handle to thread `0`'s slot. -/
theorem C10_witness :
    (ThreadLocalRepo.get opAll c0 0 w0).1 = (ThreadLocalRepo.get_uncached opAll c0 w0).1 ∧
    (ThreadLocalRepo.get opAll c0 0 w0).2.2 = (ThreadLocalRepo.get_uncached opAll c0 w0).2.2 ∧
    ((ThreadLocalRepo.get opAll c0 0 w0).2.1).tl 0 = some ⟨0, 5⟩ := by
  have h := C10_get_refines_uncached opAll c0 0 w0 rfl
  exact ⟨h.1, h.2.1, h.2.2.2.1 ⟨0, 5⟩ rfl⟩

end Tlrepo
